import Mathlib

/-!
Verification of the core logic of `tt` (a personal time-tracking CLI),
shallowly embedded from `src/main.rs`.

Modelling conventions, per the spec's scope (section 1: "no timezone-database
handling beyond local-vs-UTC conversion"; section 5: single-threaded):

* An absolute instant (`chrono::DateTime<Utc>`) is its Unix timestamp in whole
  seconds, an `Int`.  Range comparisons in the source compare
  `timestamp_millis()`; all instants here are whole seconds, and multiplying
  both sides of a comparison by 1000 does not change it.
* The local timezone (`chrono::Local`) is a fixed offset `tz_offset` seconds
  east of UTC, carried in an environment record `Ctx` together with the two
  clock reads the program makes: `Local::now()`/`Utc::now()` (the same instant,
  as a UTC timestamp `now`) and `Local::today()` (a calendar date `today`).
* `chrono::NaiveDate` is a `Date` (year, month, day); naive date arithmetic
  (`num_days_from_monday`, `with_day`, day counting) is modelled by the
  standard proleptic-Gregorian civil-calendar functions.
* The date/time strings taken by `--from`, `--to` and `--at` are modelled by
  the values they parse to (`DateOrDateTime`, respectively an instant);
  the chained-fallback string parsers `parse_date_or_date_time` and
  `parse_date_time` either produce such a value or abort the run, and none of
  the claims under verification concerns the parsing itself.
* A Rust `panic!`/`unwrap` failure is a `none` result (`Option`), and the
  user-visible `eprintln!` diagnostics are the constructors of `Report`.
* The `settings` module (`src/settings.rs`) is not among the provided sources;
  `Settings` below is modelled from the spec.
-/

/-- The shared payload of an event (`struct TrackingData`): an optional
description and a UTC instant. -/
structure TrackingData where
  description : Option String
  time : Int
deriving DecidableEq, Repr

/-- `enum TrackingEvent`: a Start or a Stop event. -/
inductive TrackingEvent where
  | start : TrackingData → TrackingEvent
  | stop : TrackingData → TrackingEvent
deriving DecidableEq, Repr

/-- `TrackingEvent::time(include_seconds)`: the event's instant, with the
seconds-of-minute zeroed (`with_second(0)`, i.e. truncation to the minute)
when `include_seconds` is false. -/
def TrackingEvent.time (e : TrackingEvent) (include_seconds : Bool) : Int :=
  match e with
  | .start td | .stop td =>
    if include_seconds then td.time else td.time - Int.emod td.time 60

/-- `TrackingEvent::description()`. -/
def TrackingEvent.description (e : TrackingEvent) : Option String :=
  match e with
  | .start td | .stop td => td.description

/-- `TrackingEvent::is_start()`. -/
def TrackingEvent.is_start : TrackingEvent → Bool
  | .start _ => true
  | .stop _ => false

/-- `TrackingEvent::is_stop()`. -/
def TrackingEvent.is_stop : TrackingEvent → Bool
  | .start _ => false
  | .stop _ => true

/-- A civil (proleptic Gregorian) calendar date, modelling `chrono::NaiveDate`. -/
structure Date where
  year : Int
  month : Nat
  day : Nat
deriving DecidableEq, Repr

/-- Gregorian leap-year rule. -/
def is_leap_year (y : Int) : Bool :=
  (Int.emod y 4 == 0 && Int.emod y 100 != 0) || Int.emod y 400 == 0

/-- Number of days in a civil month. -/
def days_in_month (y : Int) (m : Nat) : Nat :=
  if m = 2 then (if is_leap_year y then 29 else 28)
  else if m = 4 ∨ m = 6 ∨ m = 9 ∨ m = 11 then 30
  else 31

/-- Days since the Unix epoch (1970-01-01) of a civil date: the standard
days-from-civil computation, modelling `chrono`'s internal day count. -/
def days_from_civil (d : Date) : Int :=
  let y : Int := if d.month ≤ 2 then d.year - 1 else d.year
  let era : Int := Int.ediv (if 0 ≤ y then y else y - 399) 400
  let yoe : Int := y - era * 400
  let mp : Int := Int.emod ((d.month : Int) + 9) 12
  let doy : Int := Int.ediv (153 * mp + 2) 5 + (d.day : Int) - 1
  let doe : Int := yoe * 365 + Int.ediv yoe 4 - Int.ediv yoe 100 + doy
  era * 146097 + doe - 719468

/-- `Weekday::num_days_from_monday()` of a date: 0 for Monday … 6 for Sunday
(1970-01-01 was a Thursday, 3 days from Monday). -/
def num_days_from_monday (d : Date) : Int :=
  Int.emod (days_from_civil d + 3) 7

/-- `NaiveDate::with_day(day)`: the same year and month with the given
day-of-month, `none` when that day is not a valid day of the month (the
source `unwrap`s this, so `none` is a panic).  The `u32` day subtraction
`now.day() - monday_offset` in the source wraps below zero; a wrapped value
is far above any month length, so modelling it as an `Int` that `with_day`
rejects is faithful. -/
def Date.with_day (d : Date) (day : Int) : Option Date :=
  if 1 ≤ day ∧ day ≤ (days_in_month d.year d.month : Int) then
    some ⟨d.year, d.month, day.toNat⟩
  else none

/-- A naive local date-and-time, modelling `chrono::NaiveDateTime` as a date
plus the seconds elapsed since its local midnight. -/
structure NaiveDateTime where
  date : Date
  seconds_of_day : Nat
deriving DecidableEq, Repr

/-- `enum DateOrDateTime`: a parsed filter boundary. -/
inductive DateOrDateTime where
  | date : Date → DateOrDateTime
  | dateTime : NaiveDateTime → DateOrDateTime
deriving DecidableEq, Repr

/-- The environment of one program run: the fixed local-timezone offset in
seconds east of UTC, the wall-clock instant `now` (`Local::now()` /
`Utc::now()`, as a UTC timestamp) and the local calendar date `today`
(`Local::today()`). -/
structure Ctx where
  tz_offset : Int
  now : Int
  today : Date
deriving DecidableEq, Repr

/-- UTC timestamp of a local date at `sod` seconds after its local midnight:
`Local.from_local_date(d).and_time(hms).timestamp()`. -/
def local_date_and_time_utc (ctx : Ctx) (d : Date) (sod : Nat) : Int :=
  days_from_civil d * 86400 + (sod : Int) - ctx.tz_offset

/-- UTC timestamp of a naive local date-time:
`Local.from_local_datetime(n).timestamp()`. -/
def local_naive_utc (ctx : Ctx) (n : NaiveDateTime) : Int :=
  days_from_civil n.date * 86400 + (n.seconds_of_day : Int) - ctx.tz_offset

/-- Modelled from the spec: the `settings` module (`src/settings.rs`) is not
among the provided sources.  Per spec section 3/6, `Settings` supplies the
`auto_insert_stop` flag, the `data_file` path, and daily/weekly time goals
expressed as hours+minutes; it is loaded once and read-only. -/
structure TimeGoalPart where
  hours : Nat
  minutes : Nat
deriving DecidableEq, Repr

/-- Modelled from the spec: the daily and weekly time goals of `Settings`. -/
structure TimeGoal where
  daily : TimeGoalPart
  weekly : TimeGoalPart
deriving DecidableEq, Repr

/-- Modelled from the spec: process-wide configuration (see `TimeGoalPart`). -/
structure Settings where
  auto_insert_stop : Bool
  data_file : String
  time_goal : TimeGoal
deriving DecidableEq, Repr

/-- The `eprintln!` diagnostics the three tracking operations can emit, one
constructor per distinct message of the source (the rejection message of
`show` is the `rejected` outcome of `ShowOutcome`). -/
inductive Report where
  | timetracking_already_running_with_description
  | auto_insert_not_supported_with_at
  | time_tracking_already_running
  | time_tracking_already_stopped
  | continue_needs_existing_entries
deriving DecidableEq, Repr

/-- `start_tracking`: mutates the log (returned as the first component)
and possibly reports a diagnostic (second component).  `at_` is the parsed
`--at` instant, `none` when `--at` was omitted (in which case the pushed
event is stamped `ctx.now`). -/
def start_tracking (settings : Settings) (ctx : Ctx) (data : List TrackingEvent)
    (description : Option String) (at_ : Option Int) :
    List TrackingEvent × Option Report :=
  let p : Bool × Option String :=
    match data.getLast? with
    | none => (true, none)
    | some event => (event.is_stop, event.description)
  let should_add := p.1
  let last_description := p.2
  if should_add then
    (data ++ [TrackingEvent.start ⟨description, at_.getD ctx.now⟩], none)
  else if settings.auto_insert_stop && at_.isNone then
    match description, last_description with
    | some d, some ld =>
      if d = ld then
        (data, some Report.timetracking_already_running_with_description)
      else
        (data ++ [TrackingEvent.stop ⟨none, ctx.now⟩,
                  TrackingEvent.start ⟨some d, ctx.now⟩], none)
    | d, _ =>
        (data ++ [TrackingEvent.stop ⟨none, ctx.now⟩,
                  TrackingEvent.start ⟨d, ctx.now⟩], none)
  else if settings.auto_insert_stop && at_.isSome then
    (data, some Report.auto_insert_not_supported_with_at)
  else
    (data, some Report.time_tracking_already_running)

/-- `stop_tracking`: appends a Stop when the log is empty or ends in a Start,
otherwise reports "already stopped". -/
def stop_tracking (ctx : Ctx) (data : List TrackingEvent)
    (description : Option String) (at_ : Option Int) :
    List TrackingEvent × Option Report :=
  let should_add : Bool :=
    match data.getLast? with
    | none => true
    | some event => event.is_start
  if should_add then
    (data ++ [TrackingEvent.stop ⟨description, at_.getD ctx.now⟩], none)
  else
    (data, some Report.time_tracking_already_stopped)

/-- `continue_tracking`: when the log ends in a Stop, scans backward for the
most recent Start and appends a new Start reusing its description at the
current time; when no Start is found it silently does nothing; when the log
does not end in a Stop it reports that continuation needs an existing entry. -/
def continue_tracking (ctx : Ctx) (data : List TrackingEvent) :
    List TrackingEvent × Option Report :=
  match data.getLast? with
  | some (TrackingEvent.stop _) =>
    match data.reverse.find? TrackingEvent.is_start with
    | some (TrackingEvent.start td) =>
      (data ++ [TrackingEvent.start ⟨td.description, ctx.now⟩], none)
    | _ => (data, none)
  | _ => (data, some Report.continue_needs_existing_entries)

/-- `split_duration`: a whole-second duration as (hours, minutes, seconds),
via chrono's truncating `num_hours`/`num_minutes`/`num_seconds` (Rust `i64`
division truncates toward zero, `Int.tdiv`). -/
def split_duration (duration : Int) : Int × Int × Int :=
  let hours := Int.tdiv duration 3600
  let hours_in_minutes := hours * 60
  let hours_in_seconds := hours_in_minutes * 60
  let minutes := Int.tdiv duration 60 - hours_in_minutes
  let minutes_in_seconds := minutes * 60
  let seconds := duration - hours_in_seconds - minutes_in_seconds
  (hours, minutes, seconds)

/-- Whether `pat` occurs at the start of `hay` (character lists). -/
def chars_is_pre : List Char → List Char → Bool
  | [], _ => true
  | _ :: _, [] => false
  | a :: as, b :: bs => a == b && chars_is_pre as bs

/-- Whether `pat` occurs contiguously anywhere in `hay` (character lists). -/
def chars_is_sub (pat : List Char) : List Char → Bool
  | [] => pat.isEmpty
  | b :: bs => chars_is_pre pat (b :: bs) || chars_is_sub pat bs

/-- Rust `str::contains(pat)`: substring containment. -/
def str_contains (hay pat : String) : Bool :=
  chars_is_sub pat.toList hay.toList

/-- The non-"week" arm of `filter_events`'s boundary resolution: `from`
defaults to today's date; `to` defaults to `from`'s calendar date. -/
def resolve_default (ctx : Ctx) (from_ to_ : Option DateOrDateTime)
    (f : Option String) :
    Option String × Option DateOrDateTime × Option DateOrDateTime :=
  let fromD : DateOrDateTime :=
    match from_ with
    | none => DateOrDateTime.date ctx.today
    | some s => s
  let toD : DateOrDateTime :=
    match to_ with
    | some s => s
    | none =>
      match fromD with
      | DateOrDateTime.dateTime n => DateOrDateTime.date n.date
      | DateOrDateTime.date d => DateOrDateTime.date d
  (f, some fromD, some toD)

/-- The boundary resolution at the head of `filter_events`: the `"week"`
token replaces `from`/`to` by the Monday and Sunday of the current local
week, computed with `with_day` day-of-month arithmetic and `unwrap`ped
(`none` = panic), and clears the token; any other token keeps the defaults
of `resolve_default`. -/
def resolve_filter (ctx : Ctx) (from_ to_ : Option DateOrDateTime)
    (filter : Option String) :
    Option (Option String × Option DateOrDateTime × Option DateOrDateTime) :=
  match filter with
  | some f =>
    if f = "week" then
      let offset := num_days_from_monday ctx.today
      let monday_offset := offset
      let sunday_offset := 6 - offset
      match ctx.today.with_day ((ctx.today.day : Int) - monday_offset),
            ctx.today.with_day ((ctx.today.day : Int) + sunday_offset) with
      | some monday, some sunday =>
        some (none, some (DateOrDateTime.date monday),
              some (DateOrDateTime.date sunday))
      | _, _ => none
    else some (resolve_default ctx from_ to_ (some f))
  | none => some (resolve_default ctx from_ to_ none)

/-- The first per-event range test of `filter_events`: skipped entirely when
the (resolved) token is `"all"`; a Date lower bound means local midnight of
that date, a DateTime lower bound the exact instant. -/
def pass_from (ctx : Ctx) (filter : Option String)
    (from_ : Option DateOrDateTime) (entry : TrackingEvent) : Bool :=
  if filter.getD "" == "all" then true
  else
    match from_ with
    | none => true
    | some (DateOrDateTime.date d) =>
      local_date_and_time_utc ctx d 0 ≤ entry.time true
    | some (DateOrDateTime.dateTime n) =>
      local_naive_utc ctx n ≤ entry.time true

/-- The second per-event range test of `filter_events`: a Date upper bound
means 23:59:59 of that local date (86399 seconds after midnight). -/
def pass_to (ctx : Ctx) (filter : Option String)
    (to_ : Option DateOrDateTime) (entry : TrackingEvent) : Bool :=
  if filter.getD "" == "all" then true
  else
    match to_ with
    | none => true
    | some (DateOrDateTime.date d) =>
      entry.time true ≤ local_date_and_time_utc ctx d 86399
    | some (DateOrDateTime.dateTime n) =>
      entry.time true ≤ local_naive_utc ctx n

/-- The description filter of `filter_events`: with a token, an event passes
when the token is `"all"` or its description contains the token as a
substring (an event with no description passes only for `"all"`); with no
token every event passes. -/
def pass_text (filter : Option String) (entry : TrackingEvent) : Bool :=
  match filter, entry.description with
  | some f, some d => f == "all" || str_contains d f
  | some f, none => f == "all"
  | none, _ => true

/-- `filter_events`: resolves the boundaries and token, applies the two range
tests and the description test, then drops a leading run of Stop events
(`skip_while(is_stop)`).  `none` is the `unwrap` panic of the `"week"`
boundary computation. -/
def filter_events (ctx : Ctx) (data : List TrackingEvent)
    (from_ to_ : Option DateOrDateTime) (filter : Option String) :
    Option (List TrackingEvent) :=
  match resolve_filter ctx from_ to_ filter with
  | none => none
  | some (f, fromB, toB) =>
    some ((((data.filter (pass_from ctx f fromB)).filter
        (pass_to ctx f toB)).filter (pass_text f)).dropWhile
        TrackingEvent.is_stop)

/-- `get_time_from_events`: consumes the list two events at a time, summing
`stop.time - start.time` per complete pair; a trailing unpaired event
contributes `now - its time`, with `now` truncated to the minute when
`include_seconds` is false. -/
def get_time_from_events (ctx : Ctx) (include_seconds : Bool) :
    List TrackingEvent → Int
  | [] => 0
  | [e] =>
    let now := if include_seconds then ctx.now else ctx.now - Int.emod ctx.now 60
    now - e.time include_seconds
  | a :: b :: rest =>
    (b.time include_seconds - a.time include_seconds)
      + get_time_from_events ctx include_seconds rest

/-- `get_remaining_minutes`: the configured goal (weekly when the filter is
`"week"`, daily otherwise) in minutes, minus the accumulated
hours-and-minutes. -/
def get_remaining_minutes (settings : Settings) (filter : String)
    (hours minutes : Int) : Int :=
  let total := minutes + hours * 60
  let time_goal :=
    if filter = "week" then settings.time_goal.weekly
    else settings.time_goal.daily
  let required := (time_goal.minutes : Int) + (time_goal.hours : Int) * 60
  required - total

/-- Outcome of the `show` command: a panic, the remaining-query rejection
(message printed, nothing else), or the (hours, minutes, seconds) triple the
command formats and prints.  The `plain` flag and `--format` string only
change the surrounding text, not these numbers, and are omitted. -/
inductive ShowOutcome where
  | panics
  | rejected
  | printed : Int → Int → Int → ShowOutcome
deriving DecidableEq, Repr

/-- `show`: filters the log, totals the filtered events, and either prints
that work time or, under `--remaining`, checks the filter restrictions and
prints the remaining minutes toward the goals (re-filtering the already
filtered list with `"week"` and taking the smaller of daily and weekly
remaining when the scope is not already `"week"`). -/
def show' (settings : Settings) (ctx : Ctx) (data : List TrackingEvent)
    (from_ to_ : Option DateOrDateTime) (filter : Option String)
    (include_seconds remaining : Bool) : ShowOutcome :=
  match filter_events ctx data from_ to_ filter with
  | none => ShowOutcome.panics
  | some d =>
    let work_time := get_time_from_events ctx include_seconds d
    let hours := (split_duration work_time).1
    let minutes := (split_duration work_time).2.1
    let seconds := (split_duration work_time).2.2
    let f := filter.getD ""
    if remaining then
      if (f == "week" || f == "") && from_.isNone && to_.isNone then
        let rm := get_remaining_minutes settings f hours minutes
        if f != "week" then
          match filter_events ctx d none none (some "week") with
          | none => ShowOutcome.panics
          | some d2 =>
            let wt := get_time_from_events ctx include_seconds d2
            let week_hours := (split_duration wt).1
            let week_minutes := (split_duration wt).2.1
            let rmw := get_remaining_minutes settings "week" week_hours week_minutes
            let rm2 := min rm rmw
            ShowOutcome.printed (Int.tdiv rm2 60) (rm2 - Int.tdiv rm2 60 * 60) 0
        else
          ShowOutcome.printed (Int.tdiv rm 60) (rm - Int.tdiv rm 60 * 60) 0
      else
        ShowOutcome.rejected
    else
      ShowOutcome.printed hours minutes seconds

/-- The total printed minutes of a `printed` outcome (`hours * 60 + minutes`),
`none` for the other outcomes. -/
def reported_minutes : ShowOutcome → Option Int
  | ShowOutcome.printed h m _ => some (h * 60 + m)
  | _ => none

/-! ## Specification-side definitions and helper lemmas -/

/-- The alternation invariant of spec section 3: no two adjacent events of
the log have the same kind. -/
def alternating : List TrackingEvent → Bool
  | [] => true
  | [_] => true
  | a :: b :: rest => (a.is_start != b.is_start) && alternating (b :: rest)

/-- The value claim C2 asserts for a remaining-time query with no filter
token and no boundaries: the minimum of the daily goal minus the minutes
accumulated over the default (today) filter of the log and the weekly goal
minus the minutes accumulated over a week-scoped filter of the same log
(`none` when a filter computation panics). -/
def claim_c2_value (settings : Settings) (ctx : Ctx) (data : List TrackingEvent)
    (include_seconds : Bool) : Option Int :=
  match filter_events ctx data none none none,
        filter_events ctx data none none (some "week") with
  | some d_day, some d_week =>
    let sd := split_duration (get_time_from_events ctx include_seconds d_day)
    let sw := split_duration (get_time_from_events ctx include_seconds d_week)
    some (min (get_remaining_minutes settings "" sd.1 sd.2.1)
              (get_remaining_minutes settings "week" sw.1 sw.2.1))
  | _, _ => none

theorem is_start_of_is_stop_false (e : TrackingEvent) (h : e.is_stop = false) :
    e.is_start = true := by
  cases e <;> simp [TrackingEvent.is_start, TrackingEvent.is_stop] at h ⊢

theorem alternating_snoc (x : TrackingEvent) :
    ∀ l : List TrackingEvent, alternating l = true →
      (∀ e, l.getLast? = some e → (e.is_start != x.is_start) = true) →
      alternating (l ++ [x]) = true
  | [], _, _ => rfl
  | [a], _, h2 => by
      have ha := h2 a (by simp)
      simp [alternating, ha]
  | a :: b :: t, h1, h2 => by
      rw [alternating, Bool.and_eq_true] at h1
      have ih := alternating_snoc x (b :: t) h1.2 (by
        intro e he
        exact h2 e (by rw [List.getLast?_cons_cons]; exact he))
      simpa [alternating, h1.1] using ih

theorem alternating_snoc2 (l : List TrackingEvent) (x y : TrackingEvent)
    (h : alternating l = true)
    (hlx : ∀ e, l.getLast? = some e → (e.is_start != x.is_start) = true)
    (hxy : (x.is_start != y.is_start) = true) :
    alternating (l ++ [x, y]) = true := by
  have h1 := alternating_snoc x l h hlx
  have h2 := alternating_snoc y (l ++ [x]) h1 (by
    intro e he
    rw [List.getLast?_concat] at he
    cases he
    exact hxy)
  simpa using h2

theorem get_time_snoc (ctx : Ctx) (include_seconds : Bool) (e : TrackingEvent) :
    ∀ l : List TrackingEvent, l.length % 2 = 0 →
      get_time_from_events ctx include_seconds (l ++ [e])
        = get_time_from_events ctx include_seconds l
          + ((if include_seconds then ctx.now else ctx.now - Int.emod ctx.now 60)
              - e.time include_seconds)
  | [], _ => by simp [get_time_from_events]
  | [a], h => by simp at h
  | a :: b :: t, h => by
      have ht : t.length % 2 = 0 := by
        simp [List.length_cons] at h
        omega
      have ih := get_time_snoc ctx include_seconds e t ht
      simp only [List.cons_append, get_time_from_events, List.append_eq]
      rw [ih]
      ring

theorem split_duration_minutes_total (dur : Int) :
    (split_duration dur).2.1 + (split_duration dur).1 * 60 = Int.tdiv dur 60 := by
  simp only [split_duration]
  ring

/-! ## Concrete fixtures used by counterexamples and witnesses -/

/-- A run whose current local date is Saturday 2021-05-01 (UTC timezone): the
Monday of its week, 2021-04-26, lies in the previous month. -/
def ctx_c1 : Ctx := ⟨0, 0, ⟨2021, 5, 1⟩⟩

/-- A run on Wednesday 2021-03-17 (UTC timezone), clock at 10:30 local. -/
def ctx_c2 : Ctx := ⟨0, 18703 * 86400 + 37800, ⟨2021, 3, 17⟩⟩

/-- Goals of 8h daily and 2h weekly, auto-insert-stop enabled. -/
def s_c2 : Settings := ⟨true, "timetracking.json", ⟨⟨8, 0⟩, ⟨2, 0⟩⟩⟩

/-- A log with a two-hour Monday pair (2021-03-15 10:00-12:00 UTC) and a
one-hour Wednesday pair (2021-03-17 09:00-10:00 UTC). -/
def log_c2 : List TrackingEvent :=
  [TrackingEvent.start ⟨some "mon", 18701 * 86400 + 36000⟩,
   TrackingEvent.stop ⟨none, 18701 * 86400 + 43200⟩,
   TrackingEvent.start ⟨some "wed", 18703 * 86400 + 32400⟩,
   TrackingEvent.stop ⟨none, 18703 * 86400 + 36000⟩]

/-- The Wednesday pair of `log_c2`: what its default (today) filter keeps. -/
def d0_c2 : List TrackingEvent :=
  [TrackingEvent.start ⟨some "wed", 18703 * 86400 + 32400⟩,
   TrackingEvent.stop ⟨none, 18703 * 86400 + 36000⟩]

/-- Auto-insert-stop enabled, mid-month date, arbitrary goals and clock. -/
def s_auto : Settings := ⟨true, "timetracking.json", ⟨⟨8, 0⟩, ⟨40, 0⟩⟩⟩

/-- A mid-month run (Wednesday 2021-03-17, UTC timezone), clock at 1000. -/
def ctx_plain : Ctx := ⟨0, 1000, ⟨2021, 3, 17⟩⟩

/-- A run on the epoch day with the clock at 09:45:00 UTC. -/
def ctx_c7 : Ctx := ⟨0, 35100, ⟨1970, 1, 1⟩⟩

/-! ## The claims -/

/-- Claim C1 (code_bug evidence): with filter token "week" and current local
date 2021-05-01 — a Saturday whose week's Monday, 2021-04-26, lies in the
previous month — `filter_events` panics (`with_day` day-of-month arithmetic
fails and is `unwrap`ped) for every log and any from/to boundaries, instead
of returning the events of the current local week as the claim states. -/
theorem c1_week_filter_panics_at_month_boundary
    (data : List TrackingEvent) (from_ to_ : Option DateOrDateTime) :
    filter_events ctx_c1 data from_ to_ (some "week") = none := rfl

/-- Claim C6: filtering with token "all" returns exactly the input log with
its leading run of Stop events removed, for every log and any from/to
boundaries — no range test and no description test is applied. -/
theorem c6_filter_all (ctx : Ctx) (data : List TrackingEvent)
    (from_ to_ : Option DateOrDateTime) :
    filter_events ctx data from_ to_ (some "all")
      = some (data.dropWhile TrackingEvent.is_stop) := by
  have e1 : ∀ (l : List TrackingEvent) (fb : Option DateOrDateTime),
      l.filter (pass_from ctx (some "all") fb) = l := fun l fb =>
    List.filter_eq_self.mpr fun a _ => by simp [pass_from]
  have e2 : ∀ (l : List TrackingEvent) (tb : Option DateOrDateTime),
      l.filter (pass_to ctx (some "all") tb) = l := fun l tb =>
    List.filter_eq_self.mpr fun a _ => by simp [pass_to]
  have e3 : ∀ (l : List TrackingEvent), l.filter (pass_text (some "all")) = l :=
    fun l => List.filter_eq_self.mpr fun a _ => by
      cases h : a.description <;> simp [pass_text, h]
  have key : ∀ (fb tb : Option DateOrDateTime),
      some ((((data.filter (pass_from ctx (some "all") fb)).filter
          (pass_to ctx (some "all") tb)).filter
          (pass_text (some "all"))).dropWhile TrackingEvent.is_stop)
        = some (data.dropWhile TrackingEvent.is_stop) := by
    intro fb tb
    rw [e1, e2, e3]
  exact key _ _

/-- Claim C7: `get_time_from_events` consumes events two at a time in
sequence order, summing stop minus start per complete pair; a trailing
unpaired event contributes `now` minus its instant; with `include_seconds`
false every instant used (the events' and `now`) is truncated to the minute;
and on the spec's two scenarios it yields 30 respectively 45 minutes. -/
theorem c7_aggregation :
    (∀ (ctx : Ctx) (s : Bool), get_time_from_events ctx s [] = 0)
    ∧ (∀ (ctx : Ctx) (s : Bool) (e : TrackingEvent),
        get_time_from_events ctx s [e]
          = (if s then ctx.now else ctx.now - Int.emod ctx.now 60) - e.time s)
    ∧ (∀ (ctx : Ctx) (s : Bool) (a b : TrackingEvent) (rest : List TrackingEvent),
        get_time_from_events ctx s (a :: b :: rest)
          = (b.time s - a.time s) + get_time_from_events ctx s rest)
    ∧ (∀ td : TrackingData,
        TrackingEvent.time (TrackingEvent.start td) false
          = td.time - Int.emod td.time 60)
    ∧ (∀ td : TrackingData,
        TrackingEvent.time (TrackingEvent.stop td) false
          = td.time - Int.emod td.time 60)
    ∧ get_time_from_events ctx_c7 false
        [TrackingEvent.start ⟨some "work", 32400⟩,
         TrackingEvent.stop ⟨none, 34200⟩] = 30 * 60
    ∧ get_time_from_events ctx_c7 false
        [TrackingEvent.start ⟨some "work", 32400⟩] = 45 * 60 :=
  ⟨fun _ _ => rfl, fun _ _ _ => rfl, fun _ _ _ _ _ => rfl,
   fun _ => rfl, fun _ => rfl, by decide, by decide⟩

/-- Claim C10: for an even-length prefix followed by a trailing unpaired
event, the aggregator applies the still-running rule to the trailing event
regardless of its kind — here stated for a trailing Stop, which contributes
`now` minus its instant instead of being ignored. -/
theorem c10_trailing_stop (ctx : Ctx) (include_seconds : Bool)
    (l : List TrackingEvent) (d : Option String) (t : Int)
    (h : l.length % 2 = 0) :
    get_time_from_events ctx include_seconds (l ++ [TrackingEvent.stop ⟨d, t⟩])
      = get_time_from_events ctx include_seconds l
        + ((if include_seconds then ctx.now else ctx.now - Int.emod ctx.now 60)
            - TrackingEvent.time (TrackingEvent.stop ⟨d, t⟩) include_seconds) :=
  get_time_snoc ctx include_seconds (TrackingEvent.stop ⟨d, t⟩) l h

/-- Witness for C10 at the concrete input of a single Stop event: the
aggregator counts `now - 32400` for it. -/
theorem c10_witness :
    get_time_from_events ctx_c7 true [TrackingEvent.stop ⟨none, 32400⟩]
      = get_time_from_events ctx_c7 true []
        + (ctx_c7.now - TrackingEvent.time (TrackingEvent.stop ⟨none, 32400⟩) true) :=
  c10_trailing_stop ctx_c7 true [] none 32400 rfl

/-- Claim C8: `stop_tracking` appends exactly one Stop event with the
requested description and time if and only if the log is empty or ends in a
Start event; otherwise it reports "already stopped" and the log is
unchanged. -/
theorem c8_stop (ctx : Ctx) (data : List TrackingEvent)
    (description : Option String) (at_ : Option Int) :
    (stop_tracking ctx data description at_
        = (data ++ [TrackingEvent.stop ⟨description, at_.getD ctx.now⟩], none)
      ↔ (data = [] ∨ ∃ e, data.getLast? = some e ∧ e.is_start = true))
    ∧ (stop_tracking ctx data description at_
        = (data, some Report.time_tracking_already_stopped)
      ↔ ¬ (data = [] ∨ ∃ e, data.getLast? = some e ∧ e.is_start = true)) := by
  rcases hL : data.getLast? with _ | e
  · have hnil : data = [] := List.getLast?_eq_none_iff.mp hL
    subst hnil
    refine ⟨?_, ?_⟩ <;> simp [stop_tracking]
  · cases e with
    | start td =>
      have hres : stop_tracking ctx data description at_
          = (data ++ [TrackingEvent.stop ⟨description, at_.getD ctx.now⟩], none) := by
        simp [stop_tracking, hL, TrackingEvent.is_start]
      have hcond : data = []
          ∨ ∃ e, some (TrackingEvent.start td) = some e ∧ e.is_start = true :=
        Or.inr ⟨TrackingEvent.start td, rfl, rfl⟩
      refine ⟨⟨fun _ => hcond, fun _ => hres⟩, ?_, ?_⟩
      · intro habs
        rw [hres] at habs
        simp at habs
      · intro habs
        exact absurd hcond habs
    | stop td =>
      have hres : stop_tracking ctx data description at_
          = (data, some Report.time_tracking_already_stopped) := by
        simp [stop_tracking, hL, TrackingEvent.is_start]
      have hcond : ¬ (data = []
          ∨ ∃ e, some (TrackingEvent.stop td) = some e ∧ e.is_start = true) := by
        rintro (hn | ⟨e', he', hs⟩)
        · subst hn
          simp at hL
        · cases he'
          simp [TrackingEvent.is_start] at hs
      refine ⟨⟨?_, fun h => absurd h hcond⟩, fun _ => hcond, fun _ => hres⟩
      intro habs
      rw [hres] at habs
      simp at habs

/-- Claim C3 fails as stated: on a log running with no description, starting
again with no description changes the log (a Stop and a Start are appended)
although the new description equals the currently running one (both absent);
the source's guard only matches when both descriptions are present. -/
theorem c3_counterexample :
    (start_tracking s_auto ctx_plain [TrackingEvent.start ⟨none, 0⟩] none none).1
      ≠ [TrackingEvent.start ⟨none, 0⟩] := by decide

/-- Claim C3 (amended): on a log ending in a Start, with auto_insert_stop
enabled and `at` omitted, the start operation leaves the log unchanged
(reporting "already running") exactly when both the new and the running
descriptions are present and equal; otherwise — including when either
description is absent — it appends a Stop with no description followed by a
Start with the given description. -/
theorem c3_start_auto_insert (settings : Settings) (ctx : Ctx)
    (data : List TrackingEvent) (description : Option String)
    (e : TrackingEvent) (hlast : data.getLast? = some e)
    (hstart : e.is_start = true) (hauto : settings.auto_insert_stop = true) :
    ((∃ d, description = some d ∧ e.description = some d) →
        start_tracking settings ctx data description none
          = (data, some Report.timetracking_already_running_with_description))
    ∧ ((¬ ∃ d, description = some d ∧ e.description = some d) →
        start_tracking settings ctx data description none
          = (data ++ [TrackingEvent.stop ⟨none, ctx.now⟩,
                      TrackingEvent.start ⟨description, ctx.now⟩], none)) := by
  cases e with
  | stop td => simp [TrackingEvent.is_start] at hstart
  | start td =>
    constructor
    · rintro ⟨d, hd, hld⟩
      subst hd
      simp only [TrackingEvent.description] at hld
      simp [start_tracking, hlast, TrackingEvent.is_stop, TrackingEvent.description,
            hauto, hld]
    · intro hne
      cases hdesc : description with
      | none =>
        simp only [TrackingEvent.description] at hne
        simp [start_tracking, hlast, TrackingEvent.is_stop, TrackingEvent.description,
              hauto]
      | some d =>
        cases hld : td.description with
        | none =>
          simp [start_tracking, hlast, TrackingEvent.is_stop,
                TrackingEvent.description, hauto, hld]
        | some ld =>
          have hdl : ¬ d = ld := by
            intro hdl
            subst hdesc
            exact hne ⟨d, rfl, by simp [TrackingEvent.description, hld, hdl]⟩
          simp [start_tracking, hlast, TrackingEvent.is_stop,
                TrackingEvent.description, hauto, hld, hdl]

/-- Witness for C3 (amended): starting "a" while "a" is already running, with
auto-insert enabled and no `--at`, reports "already running" and leaves the
log unchanged. -/
theorem c3_witness :
    start_tracking s_auto ctx_plain [TrackingEvent.start ⟨some "a", 0⟩] (some "a") none
      = ([TrackingEvent.start ⟨some "a", 0⟩],
         some Report.timetracking_already_running_with_description) :=
  (c3_start_auto_insert s_auto ctx_plain [TrackingEvent.start ⟨some "a", 0⟩]
    (some "a") (TrackingEvent.start ⟨some "a", 0⟩) rfl rfl rfl).1 ⟨"a", rfl, rfl⟩

/-- Claim C4 fails as stated: on the log consisting of a single Stop event —
which ends in a Stop but contains no Start — the continue operation appends
nothing (and prints nothing), while the claim requires exactly one appended
Start for every log ending in a Stop. -/
theorem c4_counterexample :
    ((continue_tracking ctx_plain [TrackingEvent.stop ⟨none, 0⟩]).1).length
      ≠ [TrackingEvent.stop ⟨none, 0⟩].length + 1 := by decide

/-- Claim C4 (amended): on a log ending in a Stop that contains a Start, the
continue operation appends exactly one Start whose description is that of
the nearest preceding Start (the first Start of the reversed log),
timestamped now; on a log ending in a Stop with no Start at all it silently
leaves the log unchanged; on a log not ending in a Stop (including the empty
log) it reports a message and leaves the log unchanged. -/
theorem c4_continue (ctx : Ctx) (data : List TrackingEvent) :
    (∀ td sd, data.getLast? = some (TrackingEvent.stop td) →
        data.reverse.find? TrackingEvent.is_start = some (TrackingEvent.start sd) →
        continue_tracking ctx data
          = (data ++ [TrackingEvent.start ⟨sd.description, ctx.now⟩], none))
    ∧ (∀ td, data.getLast? = some (TrackingEvent.stop td) →
        data.reverse.find? TrackingEvent.is_start = none →
        continue_tracking ctx data = (data, none))
    ∧ ((∀ td, data.getLast? ≠ some (TrackingEvent.stop td)) →
        continue_tracking ctx data
          = (data, some Report.continue_needs_existing_entries)) := by
  refine ⟨?_, ?_, ?_⟩
  · intro td sd h1 h2
    simp [continue_tracking, h1, h2]
  · intro td h1 h2
    simp [continue_tracking, h1, h2]
  · intro h
    rcases hL : data.getLast? with _ | e
    · simp [continue_tracking, hL]
    · cases e with
      | start td => simp [continue_tracking, hL]
      | stop td => exact absurd hL (h td)

/-- Witness for C4 (amended): continuing after [Start "a", Stop] appends a
Start with description "a" at the current time. -/
theorem c4_witness :
    continue_tracking ctx_plain
        [TrackingEvent.start ⟨some "a", 0⟩, TrackingEvent.stop ⟨none, 10⟩]
      = ([TrackingEvent.start ⟨some "a", 0⟩, TrackingEvent.stop ⟨none, 10⟩]
          ++ [TrackingEvent.start ⟨some "a", ctx_plain.now⟩], none) :=
  (c4_continue ctx_plain
    [TrackingEvent.start ⟨some "a", 0⟩, TrackingEvent.stop ⟨none, 10⟩]).1
    ⟨none, 10⟩ ⟨some "a", 0⟩ rfl rfl

/-- Claim C5: each of start, stop and continue preserves the alternation
invariant — a log with no two adjacent events of the same kind stays that
way after the operation, for any settings, description and `at`. -/
theorem c5_preserve_alternation (settings : Settings) (ctx : Ctx)
    (data : List TrackingEvent) (description : Option String)
    (at_ : Option Int) (h : alternating data = true) :
    alternating (start_tracking settings ctx data description at_).1 = true
    ∧ alternating (stop_tracking ctx data description at_).1 = true
    ∧ alternating (continue_tracking ctx data).1 = true := by
  refine ⟨?_, ?_, ?_⟩
  · rcases hL : data.getLast? with _ | e
    · have hnil : data = [] := List.getLast?_eq_none_iff.mp hL
      subst hnil
      simp [start_tracking, alternating]
    · cases e with
      | stop td =>
        have hres : (start_tracking settings ctx data description at_).1
            = data ++ [TrackingEvent.start ⟨description, at_.getD ctx.now⟩] := by
          simp [start_tracking, hL, TrackingEvent.is_stop]
        rw [hres]
        refine alternating_snoc _ data h ?_
        intro e' he'
        rw [hL] at he'
        cases he'
        rfl
      | start td =>
        have hlaststop : ∀ e', data.getLast? = some e' →
            (e'.is_start != (TrackingEvent.stop ⟨none, ctx.now⟩).is_start) = true := by
          intro e' he'
          rw [hL] at he'
          cases he'
          rfl
        cases hA : settings.auto_insert_stop && at_.isNone with
        | true =>
          cases hdesc : description with
          | none =>
            have hres : (start_tracking settings ctx data none at_).1
                = data ++ [TrackingEvent.stop ⟨none, ctx.now⟩,
                           TrackingEvent.start ⟨none, ctx.now⟩] := by
              simp [start_tracking, hL, TrackingEvent.is_stop,
                    TrackingEvent.description, hA]
            rw [hres]
            exact alternating_snoc2 data _ _ h hlaststop rfl
          | some d =>
            cases hld : td.description with
            | none =>
              have hres : (start_tracking settings ctx data (some d) at_).1
                  = data ++ [TrackingEvent.stop ⟨none, ctx.now⟩,
                             TrackingEvent.start ⟨some d, ctx.now⟩] := by
                simp [start_tracking, hL, TrackingEvent.is_stop,
                      TrackingEvent.description, hA, hld]
              rw [hres]
              exact alternating_snoc2 data _ _ h hlaststop rfl
            | some ld =>
              by_cases hdl : d = ld
              · have hres : (start_tracking settings ctx data (some d) at_).1 = data := by
                  simp [start_tracking, hL, TrackingEvent.is_stop,
                        TrackingEvent.description, hA, hld, hdl]
                rw [hres]
                exact h
              · have hres : (start_tracking settings ctx data (some d) at_).1
                    = data ++ [TrackingEvent.stop ⟨none, ctx.now⟩,
                               TrackingEvent.start ⟨some d, ctx.now⟩] := by
                  simp [start_tracking, hL, TrackingEvent.is_stop,
                        TrackingEvent.description, hA, hld, hdl]
                rw [hres]
                exact alternating_snoc2 data _ _ h hlaststop rfl
        | false =>
          cases hB : settings.auto_insert_stop && at_.isSome with
          | true =>
            have hres : (start_tracking settings ctx data description at_).1 = data := by
              simp [start_tracking, hL, TrackingEvent.is_stop, hA, hB]
            rw [hres]
            exact h
          | false =>
            have hres : (start_tracking settings ctx data description at_).1 = data := by
              simp [start_tracking, hL, TrackingEvent.is_stop, hA, hB]
            rw [hres]
            exact h
  · rcases hL : data.getLast? with _ | e
    · have hnil : data = [] := List.getLast?_eq_none_iff.mp hL
      subst hnil
      simp [stop_tracking, alternating]
    · cases e with
      | start td =>
        have hres : (stop_tracking ctx data description at_).1
            = data ++ [TrackingEvent.stop ⟨description, at_.getD ctx.now⟩] := by
          simp [stop_tracking, hL, TrackingEvent.is_start]
        rw [hres]
        refine alternating_snoc _ data h ?_
        intro e' he'
        rw [hL] at he'
        cases he'
        rfl
      | stop td =>
        have hres : (stop_tracking ctx data description at_).1 = data := by
          simp [stop_tracking, hL, TrackingEvent.is_start]
        rw [hres]
        exact h
  · rcases hL : data.getLast? with _ | e
    · simp [continue_tracking, hL, h]
    · cases e with
      | start td =>
        have hres : (continue_tracking ctx data).1 = data := by
          simp [continue_tracking, hL]
        rw [hres]
        exact h
      | stop td =>
        rcases hF : data.reverse.find? TrackingEvent.is_start with _ | f
        · have hres : (continue_tracking ctx data).1 = data := by
            simp [continue_tracking, hL, hF]
          rw [hres]
          exact h
        · cases f with
          | stop sd =>
            have hres : (continue_tracking ctx data).1 = data := by
              simp [continue_tracking, hL, hF]
            rw [hres]
            exact h
          | start sd =>
            have hres : (continue_tracking ctx data).1
                = data ++ [TrackingEvent.start ⟨sd.description, ctx.now⟩] := by
              simp [continue_tracking, hL, hF]
            rw [hres]
            refine alternating_snoc _ data h ?_
            intro e' he'
            rw [hL] at he'
            cases he'
            rfl

/-- Witness for C5 at a concrete alternating log: all three operations keep
it alternating. -/
theorem c5_witness :
    alternating (start_tracking s_auto ctx_plain
        [TrackingEvent.start ⟨some "a", 0⟩, TrackingEvent.stop ⟨none, 10⟩]
        (some "b") none).1 = true
    ∧ alternating (stop_tracking ctx_plain
        [TrackingEvent.start ⟨some "a", 0⟩, TrackingEvent.stop ⟨none, 10⟩]
        none none).1 = true
    ∧ alternating (continue_tracking ctx_plain
        [TrackingEvent.start ⟨some "a", 0⟩, TrackingEvent.stop ⟨none, 10⟩]).1 = true :=
  c5_preserve_alternation s_auto ctx_plain
    [TrackingEvent.start ⟨some "a", 0⟩, TrackingEvent.stop ⟨none, 10⟩]
    (some "b") none rfl

/-- Claim C2 fails as stated: on `log_c2` (2h on Monday, 1h today) with an
8h daily and 2h weekly goal, the code reports 60 remaining minutes — its
weekly pass re-filters the already today-filtered view, so only today's hour
counts toward the weekly goal — while the claimed value, whose weekly pass
filters the whole log, is -60. -/
theorem c2_counterexample :
    reported_minutes (show' s_c2 ctx_c2 log_c2 none none none false true)
      ≠ claim_c2_value s_c2 ctx_c2 log_c2 false := by decide

/-- Claim C2 (amended): with no filter token and no boundaries, a
remaining-time query reports the minimum of (a) the daily goal in minutes
minus the minutes accumulated over the default (today) filter `d0` of the
log and (b) the weekly goal in minutes minus the minutes accumulated over a
week-scoped re-filter `d2` of that already-filtered view `d0` (not of the
original log), provided neither filter pass panics. -/
theorem c2_remaining (settings : Settings) (ctx : Ctx)
    (data : List TrackingEvent) (include_seconds : Bool)
    (d0 d2 : List TrackingEvent)
    (h0 : filter_events ctx data none none none = some d0)
    (h2 : filter_events ctx d0 none none (some "week") = some d2) :
    reported_minutes (show' settings ctx data none none none include_seconds true)
      = some (min
          (((settings.time_goal.daily.minutes : Int)
              + (settings.time_goal.daily.hours : Int) * 60)
            - Int.tdiv (get_time_from_events ctx include_seconds d0) 60)
          (((settings.time_goal.weekly.minutes : Int)
              + (settings.time_goal.weekly.hours : Int) * 60)
            - Int.tdiv (get_time_from_events ctx include_seconds d2) 60)) := by
  have hd : get_remaining_minutes settings ""
      (split_duration (get_time_from_events ctx include_seconds d0)).1
      (split_duration (get_time_from_events ctx include_seconds d0)).2.1
      = ((settings.time_goal.daily.minutes : Int)
          + (settings.time_goal.daily.hours : Int) * 60)
        - Int.tdiv (get_time_from_events ctx include_seconds d0) 60 := by
    rw [get_remaining_minutes, split_duration_minutes_total]
    simp
  have hw : get_remaining_minutes settings "week"
      (split_duration (get_time_from_events ctx include_seconds d2)).1
      (split_duration (get_time_from_events ctx include_seconds d2)).2.1
      = ((settings.time_goal.weekly.minutes : Int)
          + (settings.time_goal.weekly.hours : Int) * 60)
        - Int.tdiv (get_time_from_events ctx include_seconds d2) 60 := by
    rw [get_remaining_minutes, split_duration_minutes_total]
    simp
  simp only [show', h0, h2]
  simp only [Option.getD_none, Option.isNone_none, reported_minutes]
  simp
  rw [hd, hw]

/-- Witness for C2 (amended) on `log_c2`: the query reports
min(480 - 60, 120 - 60) = 60 minutes, both passes counting only today's
filtered hour `d0_c2`. -/
theorem c2_witness :
    reported_minutes (show' s_c2 ctx_c2 log_c2 none none none false true)
      = some (min
          (((s_c2.time_goal.daily.minutes : Int)
              + (s_c2.time_goal.daily.hours : Int) * 60)
            - Int.tdiv (get_time_from_events ctx_c2 false d0_c2) 60)
          (((s_c2.time_goal.weekly.minutes : Int)
              + (s_c2.time_goal.weekly.hours : Int) * 60)
            - Int.tdiv (get_time_from_events ctx_c2 false d0_c2) 60)) :=
  c2_remaining s_c2 ctx_c2 log_c2 false d0_c2 d0_c2 (by decide) (by decide)

/-- Claim C9 fails as stated: with filter token "week" and an explicit
`from`, on a run whose current week crosses a month boundary
(today = 2021-05-01), the rejection condition holds yet the query is not
rejected with a message — the initial "week" filter pass panics first. -/
theorem c9_counterexample :
    show' s_auto ctx_c1 [] (some (DateOrDateTime.date ⟨2021, 4, 30⟩)) none
        (some "week") false true
      ≠ ShowOutcome.rejected := by decide

/-- Claim C9 (amended): provided the initial filter pass does not panic, a
remaining-time query is rejected — only the restriction message, no value —
exactly when an explicit `from` or `to` was supplied, or the filter token is
present and neither empty nor "week". -/
theorem c9_remaining_rejection (settings : Settings) (ctx : Ctx)
    (data : List TrackingEvent) (from_ to_ : Option DateOrDateTime)
    (filter : Option String) (include_seconds : Bool)
    (d : List TrackingEvent)
    (hf : filter_events ctx data from_ to_ filter = some d) :
    show' settings ctx data from_ to_ filter include_seconds true
        = ShowOutcome.rejected
      ↔ (from_.isSome = true ∨ to_.isSome = true
          ∨ ∃ f, filter = some f ∧ f ≠ "" ∧ f ≠ "week") := by
  rcases filter with _ | f
  · rcases from_ with _ | fv
    · rcases to_ with _ | tv
      · rcases hr : filter_events ctx d none none (some "week") with _ | d2 <;>
          simp [show', hf, hr]
      · simp [show', hf]
    · simp [show', hf]
  · by_cases hwe : f = "week"
    · subst hwe
      rcases from_ with _ | fv
      · rcases to_ with _ | tv
        · simp [show', hf]
        · simp [show', hf]
      · simp [show', hf]
    · by_cases hem : f = ""
      · subst hem
        rcases from_ with _ | fv
        · rcases to_ with _ | tv
          · rcases hr : filter_events ctx d none none (some "week") with _ | d2 <;>
              simp [show', hf, hr]
          · simp [show', hf]
        · simp [show', hf]
      · simp [show', hf, hwe, hem]

/-- Witness for C9 (amended): an explicit `from` (with no token) makes the
remaining-time query print only the restriction message. -/
theorem c9_witness :
    show' s_auto ctx_plain [] (some (DateOrDateTime.date ⟨2021, 3, 17⟩)) none
        none false true
      = ShowOutcome.rejected :=
  (c9_remaining_rejection s_auto ctx_plain []
      (some (DateOrDateTime.date ⟨2021, 3, 17⟩)) none none false []
      (by decide)).mpr (Or.inl rfl)
